import Mathlib

/-!
Verification of the vocabulary pipeline of the language-learning backend:
the regex-based pair extractor `extractVocabulary`, the dedup-insert block
that persists extracted pairs, and the daily vocabulary set handler.

Strings are modelled as Lean `String` / `List Char`; all characters involved
are in the Basic Multilingual Plane, where JavaScript UTF-16 code-unit
indices and lengths coincide with character counts.
-/

namespace LearnLang

/-- JS `\w` word-character class `[A-Za-z0-9_]`.  The regexes in
`extractVocabulary` are compiled without the `u` flag, so `\w` is
ASCII-only and does not match letters with diacritics such as `ā`. -/
def isWordChar (c : Char) : Bool :=
  ('a' ≤ c && c ≤ 'z') || ('A' ≤ c && c ≤ 'Z') || ('0' ≤ c && c ≤ '9') || c == '_'

/-- JS `\s` whitespace class (WhiteSpace and LineTerminator productions),
by code point: space, tab, LF, VT, FF, CR, NBSP, Ogham space mark,
U+2000..U+200A, LS, PS, narrow no-break space, medium mathematical space,
ideographic space, BOM. -/
def isJsSpace (c : Char) : Bool :=
  c.val == 0x20 || c.val == 0x09 || c.val == 0x0a || c.val == 0x0b ||
  c.val == 0x0c || c.val == 0x0d || c.val == 0xa0 || c.val == 0x1680 ||
  (0x2000 <= c.val && c.val <= 0x200a) || c.val == 0x2028 || c.val == 0x2029 ||
  c.val == 0x202f || c.val == 0x205f || c.val == 0x3000 || c.val == 0xfeff

/-- Characters that terminate the translation run of pattern 2: the
negated class `[^.,\n]` of the regex. -/
def isTermChar (c : Char) : Bool :=
  c == '.' || c == ',' || c == '\n'

/-- The separator class `[-–—]` of pattern 2 (hyphen, en dash, em dash). -/
def sepChar (c : Char) : Bool :=
  c == '-' || c == '–' || c == '—'

/-- Length of the maximal prefix of `l` whose characters satisfy `p`. -/
def countWhile (p : Char → Bool) (l : List Char) : Nat :=
  (l.takeWhile p).length

/-- The characters of `t` at positions `[a, b)` (JS `substring` on
in-range indices). -/
def slice (t : List Char) (a b : Nat) : List Char :=
  (t.drop a).take (b - a)

/-- JS `String.prototype.trim`: drop JS whitespace on both ends. -/
def jsTrim (l : List Char) : List Char :=
  ((l.dropWhile isJsSpace).reverse.dropWhile isJsSpace).reverse

/-- JS `String.prototype.toLowerCase`, modelled on the character ranges the
program can meet: ASCII, Latin-1 and Latin Extended-A uppercase letters
(this covers the English and Latvian alphabets); all other characters are
returned unchanged. -/
def toLowerChar (c : Char) : Char :=
  let n := c.toNat
  if 0x41 ≤ n ∧ n ≤ 0x5a then Char.ofNat (n + 32)
  else if 0xc0 ≤ n ∧ n ≤ 0xde ∧ n ≠ 0xd7 then Char.ofNat (n + 32)
  else if (0x100 ≤ n ∧ n ≤ 0x12f ∧ n % 2 = 0) ∨ (0x132 ≤ n ∧ n ≤ 0x137 ∧ n % 2 = 0) ∨
          (0x139 ≤ n ∧ n ≤ 0x148 ∧ n % 2 = 1) ∨ (0x14a ≤ n ∧ n ≤ 0x177 ∧ n % 2 = 0) ∨
          (0x179 ≤ n ∧ n ≤ 0x17e ∧ n % 2 = 1) then Char.ofNat (n + 1)
  else c

/-- Lower-case every character of a string (as a character list). -/
def toLowerStr (l : List Char) : List Char :=
  l.map toLowerChar

/-- The dedup key `` `${word.toLowerCase()}-${translation.toLowerCase()}` ``. -/
def keyOf (w tr : List Char) : List Char :=
  toLowerStr w ++ [ '-' ] ++ toLowerStr tr

/-- Attempt of pattern 1, `/(\w+)\s*\(([^)]+)\)/`, at position `i` of `t`.
On success, returns `(end of match, capture 1, capture 2)`.  The greedy
quantifiers are maximal runs: backtracking can never recover, because a
shortened `\w+` leaves a word character where `\s*` must end with `(`,
a shortened `\s*` leaves a whitespace character where `(` is required,
and a shortened `[^)]+` leaves a non-`)` character where `)` is required. -/
def matchP1At (t : List Char) (i : Nat) : Option (Nat × List Char × List Char) :=
  let w := countWhile isWordChar (t.drop i)
  if w = 0 then none
  else
    let j := i + w
    let j2 := j + countWhile isJsSpace (t.drop j)
    match t[j2]? with
    | some c =>
      if c == '(' then
        let inner := countWhile (fun d => !(d == ')')) (t.drop (j2 + 1))
        if inner = 0 then none
        else
          match t[j2 + 1 + inner]? with
          | some _ => some (j2 + inner + 2, slice t i j, slice t (j2 + 1) (j2 + 1 + inner))
          | none => none
      else none
    | none => none

/-- Backtracking tail of pattern 2 when the first character after the
maximal whitespace run following the separator is a terminator (or the
string ends there): `\s*` gives characters back until `[^.,\n]+` can take
one, i.e. until a whitespace character other than `\n` is found; the
greedy group then holds exactly that character, every later whitespace
character being `\n`.  `k` is the position after the separator, `m` the
number of whitespace positions still available, `w` capture 1. -/
def backtrack2 (t : List Char) (k : Nat) (w : List Char) :
    Nat → Option (Nat × List Char × List Char)
  | 0 => none
  | m + 1 =>
    match t[k + m]? with
    | some d => if d == '\n' then backtrack2 t k w m else some (k + m + 1, w, [d])
    | none => backtrack2 t k w m

/-- Attempt of pattern 2, `/(\w+)\s*[-–—]\s*([^.,\n]+)/`, at position `i`
of `t`.  On success, returns `(end of match, capture 1, capture 2)`. -/
def matchP2At (t : List Char) (i : Nat) : Option (Nat × List Char × List Char) :=
  let w := countWhile isWordChar (t.drop i)
  if w = 0 then none
  else
    let j := i + w
    let j2 := j + countWhile isJsSpace (t.drop j)
    match t[j2]? with
    | some c =>
      if sepChar c then
        let k := j2 + 1
        let m := countWhile isJsSpace (t.drop k)
        match t[k + m]? with
        | some d =>
          if isTermChar d then backtrack2 t k (slice t i j) m
          else
            let r := countWhile (fun e => !(isTermChar e)) (t.drop (k + m))
            some (k + m + r, slice t i j, slice t (k + m) (k + m + r))
        | none => backtrack2 t k (slice t i j) m
      else none
    | none => none

/-- An extracted vocabulary pair (the `VocabularyPair` interface). -/
structure VocabularyPair where
  latvianWord : String
  englishTranslation : String
  context : String
deriving DecidableEq, Repr, Inhabited

/-- Context of a match spanning `[i, e)`:
`text.substring(max(0, i - 50), min(text.length, e + 50)).trim()`. -/
def mkContext (t : List Char) (i e : Nat) : List Char :=
  jsTrim (slice t (i - 50) (min t.length (e + 50)))

/-- Number of elements of `translation.split(/\s+/)` for a string with no
leading whitespace run unaccounted: JS split on a regex yields one more
element than the number of maximal whitespace runs. -/
def countWsRunsAux : List Char → Bool → Nat
  | [], _ => 0
  | c :: rest, prevWs =>
    if isJsSpace c then (if prevWs then 0 else 1) + countWsRunsAux rest true
    else countWsRunsAux rest false

/-- Value of `l.split(/\s+/).length` in JS: one more than the number of
maximal whitespace runs of `l`. -/
def countTokens (l : List Char) : Nat :=
  1 + countWsRunsAux l false

/-- Scanner state: the regex `lastIndex`, the `seen` key set, and the
`vocabulary` accumulator. -/
abbrev ScanState := Nat × List (List Char) × List VocabularyPair

/-- One candidate start position of the pattern-1 `while(exec)` loop.
Positions below `lastIndex` are skipped; a match advances `lastIndex` to
its end, and pushes a pair when the key is fresh and both trimmed
captures are longer than one character. -/
def step1 (t : List Char) (st : ScanState) (i : Nat) : ScanState :=
  let (last, seen, acc) := st
  if i < last then st
  else
    match matchP1At t i with
    | none => st
    | some (e, wRaw, trRaw) =>
      let word := jsTrim wRaw
      let tr := jsTrim trRaw
      let key := keyOf word tr
      if seen.contains key = false ∧ 1 < word.length ∧ 1 < tr.length then
        (e, key :: seen,
          acc ++ [⟨word.asString, tr.asString, (mkContext t i e).asString⟩])
      else (e, seen, acc)

/-- One candidate start position of the pattern-2 `while(exec)` loop; like
`step1` but with the `continue` when the trimmed translation splits into
more than 3 whitespace-separated tokens (`lastIndex` still advances). -/
def step2 (t : List Char) (st : ScanState) (i : Nat) : ScanState :=
  let (last, seen, acc) := st
  if i < last then st
  else
    match matchP2At t i with
    | none => st
    | some (e, wRaw, trRaw) =>
      let word := jsTrim wRaw
      let tr := jsTrim trRaw
      if 3 < countTokens tr then (e, seen, acc)
      else
        let key := keyOf word tr
        if seen.contains key = false ∧ 1 < word.length ∧ 1 < tr.length then
          (e, key :: seen,
            acc ++ [⟨word.asString, tr.asString, (mkContext t i e).asString⟩])
        else (e, seen, acc)

/-- The extractor `extractVocabulary`: run the pattern-1 loop over the whole text, then
the pattern-2 loop (sharing the `seen` set), and return the pairs pushed
by the first loop followed by those pushed by the second. -/
def extractVocabulary (text : String) : List VocabularyPair :=
  let t := text.toList
  let r1 := (List.range t.length).foldl (step1 t) (0, [], [])
  let r2 := (List.range t.length).foldl (step2 t) (0, r1.2.1, [])
  r1.2.2 ++ r2.2.2

/-- A stored row of the `vocabulary` table. -/
structure VocabularyEntry where
  conversationId : String
  userId : String
  latvianWord : String
  englishTranslation : String
  context : String
deriving DecidableEq, Repr, Inhabited

/-- The dedup key of two stored strings (same shape as `keyOf`). -/
def strKey (w tr : String) : List Char :=
  keyOf w.toList tr.toList

/-- The dedup key of an extracted pair. -/
def pairKey (p : VocabularyPair) : List Char :=
  strKey p.latvianWord p.englishTranslation

/-- The `existingKeys` set: keys of the stored entries of a conversation. -/
def convKeys (store : List VocabularyEntry) (cid : String) : List (List Char) :=
  (store.filter (fun v => v.conversationId == cid)).map
    (fun v => strKey v.latvianWord v.englishTranslation)

/-- The vocabulary dedup-insert block: if any pairs were extracted, filter
out those whose key is already stored for the conversation and bulk-insert
the rest (the insert is guarded by `newVocabulary.length > 0`). -/
def persistVocabulary (store : List VocabularyEntry) (cid uid : String)
    (pairs : List VocabularyPair) : List VocabularyEntry :=
  if 0 < pairs.length then
    let existingKeys := convKeys store cid
    let newVocabulary := pairs.filter (fun p => !(existingKeys.contains (pairKey p)))
    if 0 < newVocabulary.length then
      store ++ newVocabulary.map
        (fun p => ⟨cid, uid, p.latvianWord, p.englishTranslation, p.context⟩)
    else store
  else store

/-- Extraction followed by the dedup-insert block, as run after each
tutor turn. -/
def extractAndPersistVocabulary (store : List VocabularyEntry)
    (cid uid text : String) : List VocabularyEntry :=
  persistVocabulary store cid uid (extractVocabulary text)

/-- A stored row of the `dailyVocabulary` table. -/
structure DailyRow where
  userId : String
  date : String
  topic : String
  latvianWord : String
  englishTranslation : String
  context : String
deriving DecidableEq, Repr, Inhabited

/-- One entry of the `words` array of a parsed generation response. -/
structure GenWord where
  latvian : String
  english : String
  context : String
deriving DecidableEq, Repr, Inhabited

/-- A generation response that `JSON.parse` accepted: its `topic` field
(absent or empty modelled as `""`, which is falsy like `undefined`) and
its `words` field (`none` models a value that is not an array). -/
structure GenData where
  topic : String
  words : Option (List GenWord)
deriving DecidableEq, Repr, Inhabited

/-- Outcome of the daily-vocabulary handler: a topic with its word rows,
or an HTTP 500 response. -/
inductive DailyResult where
  | ok (topic : String) (words : List DailyRow)
  | error
deriving DecidableEq, Repr, Inhabited

/-- The rows of `store` for `(uid, date)`. -/
def dailyRowsFor (store : List DailyRow) (uid date : String) : List DailyRow :=
  store.filter (fun r => r.userId == uid && r.date == date)

/-- Number of stored daily rows for `(uid, date)`. -/
def dailyCount (store : List DailyRow) (uid date : String) : Nat :=
  (dailyRowsFor store uid date).length

/-- The GET `/api/daily-vocabulary` handler (`getOrGenerateDailySet`):
if at least 5 rows exist for `(uid, date)`, return them with the topic of
the first row, touching neither the store nor the generator; otherwise
consult the generation oracle `gen` (`none` models an `aiResponse` that
`JSON.parse` rejects), validate `topic` truthy, `words` an array of
exactly 5 entries, and on success bulk-insert the 5 rows; every failure
returns a 500 with no insert. -/
def getOrGenerateDailySet (store : List DailyRow) (uid date : String)
    (gen : Option GenData) : DailyResult × List DailyRow :=
  let existingDaily := dailyRowsFor store uid date
  if 5 ≤ existingDaily.length then
    (DailyResult.ok (existingDaily.headD default).topic existingDaily, store)
  else
    match gen with
    | none => (DailyResult.error, store)
    | some d =>
      if d.topic = "" then (DailyResult.error, store)
      else
        match d.words with
        | none => (DailyResult.error, store)
        | some ws =>
          if ws.length = 5 then
            let rows := ws.map
              (fun w => (⟨uid, date, d.topic, w.latvian, w.english, w.context⟩ : DailyRow))
            (DailyResult.ok d.topic rows, store ++ rows)
          else (DailyResult.error, store)

/-- Iterate the handler over a sequence of generation outcomes, keeping
only the evolving store. -/
def applyCalls (store : List DailyRow) (uid date : String)
    (gens : List (Option GenData)) : List DailyRow :=
  gens.foldl (fun s g => (getOrGenerateDailySet s uid date g).2) store

/-! ## Theorems -/

/-- C4: extraction is total — for every input string `s`, including the
empty string, `extractVocabulary s` is a (finite) list, and
`extractVocabulary ""` is the empty list. -/
theorem extractVocabulary_total :
    extractVocabulary "" = [] ∧
      ∀ s : String, ∃ l : List VocabularyPair, extractVocabulary s = l :=
  ⟨rfl, fun s => ⟨extractVocabulary s, rfl⟩⟩

/-- C6: on the input `"māja (house)"` the extractor returns the single
pair with word `"ja"`, translation `"house"` and context
`"māja (house)"` — not the full word `"māja"` the spec states: the
pattern-1 regex is compiled without the `u` flag, so `\w` does not match
`ā` and the word-character run starts only after it. -/
theorem extractVocabulary_maja_house :
    extractVocabulary "māja (house)" =
      [{ latvianWord := "ja", englishTranslation := "house",
         context := "māja (house)" }] := by
  decide

/-- C7 counterexample: the arrow `→` is not in the pattern-2 separator
class `[-–—]`, so `"labi → good"` yields no pair at all, refuting the
claim that it yields `(labi, good)`. -/
theorem extractVocabulary_arrow_counterexample :
    extractVocabulary "labi → good" = [] := by
  decide

/-- C7 amended: the pattern-2 separator set is exactly the hyphen, the en
dash and the em dash (not the arrow) — each of `"labi - good"`,
`"labi – good"` and `"labi — good"` yields the pair `(labi, good)` (the
arrow yields nothing, as the counterexample shows). -/
theorem extractVocabulary_separator_set :
    (∀ c : Char, sepChar c = true ↔ (c = '-' ∨ c = '–' ∨ c = '—')) ∧
    extractVocabulary "labi - good" =
      [{ latvianWord := "labi", englishTranslation := "good",
         context := "labi - good" }] ∧
    extractVocabulary "labi – good" =
      [{ latvianWord := "labi", englishTranslation := "good",
         context := "labi – good" }] ∧
    extractVocabulary "labi — good" =
      [{ latvianWord := "labi", englishTranslation := "good",
         context := "labi — good" }] := by
  refine ⟨fun c => ?_, by decide, by decide, by decide⟩
  simp [sepChar, Bool.or_eq_true, beq_iff_eq]
  tauto

/-- C8 counterexample: in `"abc - def. ghij (klm)"` the pattern-2 match
`abc - def` starts at position 0 and the pattern-1 match `ghij (klm)` at
position 11, yet the returned words are `["ghij", "abc"]` — the pair of
the later match comes first, refuting ordering by first match
occurrence. -/
theorem extractVocabulary_order_counterexample :
    (extractVocabulary "abc - def. ghij (klm)").map VocabularyPair.latvianWord
      = ["ghij", "abc"] := by
  decide

/-- C8 amended: the returned sequence is all pattern-1 (parenthesis)
pairs in match order followed by all pattern-2 (dash) pairs in match
order, not a single sequence ordered by text position: on
`"abc - def. ghij (klm)"` the full output is the pattern-1 pair
`(ghij, klm)` followed by the pattern-2 pair `(abc, def)`. -/
theorem extractVocabulary_two_pass_order :
    extractVocabulary "abc - def. ghij (klm)" =
      [{ latvianWord := "ghij", englishTranslation := "klm",
         context := "abc - def. ghij (klm)" },
       { latvianWord := "abc", englishTranslation := "def",
         context := "abc - def. ghij (klm)" }] := by
  decide

/-- Each call of the daily handler either leaves the store untouched or
appends the 5 generated rows, which all carry the queried `(uid, date)`;
the second case arises only below the cache threshold. -/
theorem getOrGenerateDailySet_count_cases (s : List DailyRow) (uid date : String)
    (g : Option GenData) :
    (getOrGenerateDailySet s uid date g).2 = s ∨
      ((dailyRowsFor s uid date).length < 5 ∧
        dailyCount (getOrGenerateDailySet s uid date g).2 uid date
          = dailyCount s uid date + 5) := by
  unfold getOrGenerateDailySet
  by_cases h5 : 5 ≤ (dailyRowsFor s uid date).length
  · rw [if_pos h5]; exact Or.inl rfl
  · rw [if_neg h5]
    rcases g with _ | d
    · exact Or.inl rfl
    · dsimp only
      by_cases ht : d.topic = ""
      · rw [if_pos ht]; exact Or.inl rfl
      · rw [if_neg ht]
        rcases d.words with _ | ws
        · exact Or.inl rfl
        · dsimp only
          by_cases hl : ws.length = 5
          · rw [if_pos hl]
            refine Or.inr ⟨by omega, ?_⟩
            simp only [dailyCount, dailyRowsFor, List.filter_append, List.length_append]
            have : (ws.map (fun w =>
                (⟨uid, date, d.topic, w.latvian, w.english, w.context⟩ : DailyRow))).filter
                  (fun r => r.userId == uid && r.date == date)
                = ws.map (fun w =>
                    (⟨uid, date, d.topic, w.latvian, w.english, w.context⟩ : DailyRow)) := by
              rw [List.filter_eq_self]
              intro a ha
              rcases List.mem_map.mp ha with ⟨w, _, rfl⟩
              simp
            rw [this, List.length_map, hl]
          · rw [if_neg hl]; exact Or.inl rfl

/-- The cache-hit branch of the daily handler leaves the store
untouched. -/
theorem getOrGenerateDailySet_cache_hit_store (s : List DailyRow) (uid date : String)
    (g : Option GenData) (h : 5 ≤ (dailyRowsFor s uid date).length) :
    (getOrGenerateDailySet s uid date g).2 = s := by
  unfold getOrGenerateDailySet
  rw [if_pos h]

/-- Iterating the handler from a store whose `(uid, date)` count is 0 or 5
keeps the count at 0 or 5. -/
theorem applyCalls_count_invariant (uid date : String) (gens : List (Option GenData)) :
    ∀ s : List DailyRow,
      dailyCount s uid date = 0 ∨ dailyCount s uid date = 5 →
      dailyCount (applyCalls s uid date gens) uid date = 0 ∨
        dailyCount (applyCalls s uid date gens) uid date = 5 := by
  induction gens with
  | nil => intro s h; exact h
  | cons g gs ih =>
    intro s h
    refine ih ((getOrGenerateDailySet s uid date g).2) ?_
    rcases getOrGenerateDailySet_count_cases s uid date g with heq | ⟨hlt, hcount⟩
    · rw [heq]; exact h
    · rcases h with h0 | h5
      · right; rw [hcount, h0]
      · exfalso
        have hc : dailyCount s uid date = (dailyRowsFor s uid date).length := rfl
        omega

/-- C2: starting from a store holding no `dailyVocabulary` rows for
`(uid, date)`, any sequence of `getOrGenerateDailySet` calls (each with an
arbitrary generation outcome, no concurrency) leaves exactly 0 or exactly
5 rows for `(uid, date)`; and the call following any prefix of the
sequence either leaves the count unchanged or moves it from 0 to exactly
5 by one bulk insert of a validated 5-element word list. -/
theorem dailySet_size_invariant (store : List DailyRow) (uid date : String)
    (gens : List (Option GenData)) (k : Nat) (g : Option GenData)
    (h : dailyCount store uid date = 0) :
    (dailyCount (applyCalls store uid date gens) uid date = 0 ∨
      dailyCount (applyCalls store uid date gens) uid date = 5) ∧
    (dailyCount (getOrGenerateDailySet (applyCalls store uid date (gens.take k))
          uid date g).2 uid date
        = dailyCount (applyCalls store uid date (gens.take k)) uid date ∨
      (dailyCount (applyCalls store uid date (gens.take k)) uid date = 0 ∧
        dailyCount (getOrGenerateDailySet (applyCalls store uid date (gens.take k))
            uid date g).2 uid date = 5)) := by
  refine ⟨applyCalls_count_invariant uid date gens store (Or.inl h), ?_⟩
  have hpre := applyCalls_count_invariant uid date (gens.take k) store (Or.inl h)
  set s := applyCalls store uid date (gens.take k)
  rcases getOrGenerateDailySet_count_cases s uid date g with heq | ⟨hlt, hcount⟩
  · left; rw [heq]
  · rcases hpre with h0 | h5
    · exact Or.inr ⟨h0, by rw [hcount, h0]⟩
    · exfalso
      have hc : dailyCount s uid date = (dailyRowsFor s uid date).length := rfl
      omega

/-- C2 witness at concrete inputs: empty store, one successful generation
followed by one parse failure. -/
theorem dailySet_size_invariant_witness :
    (dailyCount (applyCalls [] "u1" "2025-06-01"
        [some ⟨"Food", some [⟨"w1", "e1", "k1"⟩, ⟨"w2", "e2", "k2"⟩, ⟨"w3", "e3", "k3"⟩,
          ⟨"w4", "e4", "k4"⟩, ⟨"w5", "e5", "k5"⟩]⟩, none]) "u1" "2025-06-01" = 0 ∨
      dailyCount (applyCalls [] "u1" "2025-06-01"
        [some ⟨"Food", some [⟨"w1", "e1", "k1"⟩, ⟨"w2", "e2", "k2"⟩, ⟨"w3", "e3", "k3"⟩,
          ⟨"w4", "e4", "k4"⟩, ⟨"w5", "e5", "k5"⟩]⟩, none]) "u1" "2025-06-01" = 5) ∧
    (dailyCount (getOrGenerateDailySet (applyCalls [] "u1" "2025-06-01"
          ([some ⟨"Food", some [⟨"w1", "e1", "k1"⟩, ⟨"w2", "e2", "k2"⟩, ⟨"w3", "e3", "k3"⟩,
            ⟨"w4", "e4", "k4"⟩, ⟨"w5", "e5", "k5"⟩]⟩, none].take 1))
          "u1" "2025-06-01" none).2 "u1" "2025-06-01"
        = dailyCount (applyCalls [] "u1" "2025-06-01"
          ([some ⟨"Food", some [⟨"w1", "e1", "k1"⟩, ⟨"w2", "e2", "k2"⟩, ⟨"w3", "e3", "k3"⟩,
            ⟨"w4", "e4", "k4"⟩, ⟨"w5", "e5", "k5"⟩]⟩, none].take 1)) "u1" "2025-06-01" ∨
      (dailyCount (applyCalls [] "u1" "2025-06-01"
          ([some ⟨"Food", some [⟨"w1", "e1", "k1"⟩, ⟨"w2", "e2", "k2"⟩, ⟨"w3", "e3", "k3"⟩,
            ⟨"w4", "e4", "k4"⟩, ⟨"w5", "e5", "k5"⟩]⟩, none].take 1)) "u1" "2025-06-01" = 0 ∧
        dailyCount (getOrGenerateDailySet (applyCalls [] "u1" "2025-06-01"
            ([some ⟨"Food", some [⟨"w1", "e1", "k1"⟩, ⟨"w2", "e2", "k2"⟩, ⟨"w3", "e3", "k3"⟩,
              ⟨"w4", "e4", "k4"⟩, ⟨"w5", "e5", "k5"⟩]⟩, none].take 1))
            "u1" "2025-06-01" none).2 "u1" "2025-06-01" = 5)) :=
  dailySet_size_invariant [] "u1" "2025-06-01"
    [some ⟨"Food", some [⟨"w1", "e1", "k1"⟩, ⟨"w2", "e2", "k2"⟩, ⟨"w3", "e3", "k3"⟩,
      ⟨"w4", "e4", "k4"⟩, ⟨"w5", "e5", "k5"⟩]⟩, none] 1 none (by decide)

/-- C3: below the cache threshold, a generation outcome that is not valid
JSON (`gen = none`), or whose parsed value has a falsy `topic`, a `words`
value that is not an array, or a `words` array whose length is not 5,
makes the handler answer with an internal error and insert zero rows, so
a subsequent call for the same `(uid, date)` behaves exactly as if the
failed call had never happened. -/
theorem getOrGenerateDailySet_failure_atomic (store : List DailyRow)
    (uid date : String) (g g2 : Option GenData)
    (hc : dailyCount store uid date < 5)
    (hbad : g = none ∨ ∃ d, g = some d ∧
      (d.topic = "" ∨ d.words = none ∨ ∃ ws, d.words = some ws ∧ ws.length ≠ 5)) :
    getOrGenerateDailySet store uid date g = (DailyResult.error, store) ∧
    getOrGenerateDailySet (getOrGenerateDailySet store uid date g).2 uid date g2
      = getOrGenerateDailySet store uid date g2 := by
  have h5 : ¬5 ≤ (dailyRowsFor store uid date).length := by
    have hce : dailyCount store uid date = (dailyRowsFor store uid date).length := rfl
    omega
  have herr : getOrGenerateDailySet store uid date g = (DailyResult.error, store) := by
    unfold getOrGenerateDailySet
    rw [if_neg h5]
    rcases hbad with rfl | ⟨d, rfl, hd⟩
    · rfl
    · dsimp only
      rcases hd with ht | hw | ⟨ws, hws, hlen⟩
      · rw [if_pos ht]
      · by_cases ht : d.topic = ""
        · rw [if_pos ht]
        · rw [if_neg ht, hw]
      · by_cases ht : d.topic = ""
        · rw [if_pos ht]
        · rw [if_neg ht, hws]
          dsimp only
          rw [if_neg hlen]
  exact ⟨herr, by rw [herr]⟩

/-- C3 witness at concrete inputs: empty store and a parse failure. -/
theorem getOrGenerateDailySet_failure_atomic_witness :
    getOrGenerateDailySet [] "u1" "2025-06-01" none = (DailyResult.error, []) ∧
    getOrGenerateDailySet (getOrGenerateDailySet [] "u1" "2025-06-01" none).2
        "u1" "2025-06-01" (some ⟨"Food", some []⟩)
      = getOrGenerateDailySet [] "u1" "2025-06-01" (some ⟨"Food", some []⟩) :=
  getOrGenerateDailySet_failure_atomic [] "u1" "2025-06-01" none
    (some ⟨"Food", some []⟩) (by decide) (Or.inl rfl)

/-- C10: when at least 5 rows already exist for `(uid, date)`, the handler
leaves the store unchanged, its answer does not depend on the generation
oracle (no external request is made), and it returns the existing rows
with the topic of the first one. -/
theorem getOrGenerateDailySet_cache_hit_frame (store : List DailyRow)
    (uid date : String) (g g2 : Option GenData)
    (h : 5 ≤ dailyCount store uid date) :
    (getOrGenerateDailySet store uid date g).2 = store ∧
    getOrGenerateDailySet store uid date g = getOrGenerateDailySet store uid date g2 ∧
    (getOrGenerateDailySet store uid date g).1 =
      DailyResult.ok ((dailyRowsFor store uid date).headD default).topic
        (dailyRowsFor store uid date) := by
  have h5 : 5 ≤ (dailyRowsFor store uid date).length := h
  have hcall : ∀ gg : Option GenData,
      getOrGenerateDailySet store uid date gg
        = (DailyResult.ok ((dailyRowsFor store uid date).headD default).topic
            (dailyRowsFor store uid date), store) := by
    intro gg
    unfold getOrGenerateDailySet
    rw [if_pos h5]
  rw [hcall g, hcall g2]
  exact ⟨rfl, rfl, rfl⟩

/-- C10 witness at a concrete 5-row store. -/
theorem getOrGenerateDailySet_cache_hit_frame_witness :
    (getOrGenerateDailySet
        [⟨"u1", "2025-06-01", "Food", "w1", "e1", "k1"⟩,
         ⟨"u1", "2025-06-01", "Food", "w2", "e2", "k2"⟩,
         ⟨"u1", "2025-06-01", "Food", "w3", "e3", "k3"⟩,
         ⟨"u1", "2025-06-01", "Food", "w4", "e4", "k4"⟩,
         ⟨"u1", "2025-06-01", "Food", "w5", "e5", "k5"⟩]
        "u1" "2025-06-01" none).2 =
      [⟨"u1", "2025-06-01", "Food", "w1", "e1", "k1"⟩,
       ⟨"u1", "2025-06-01", "Food", "w2", "e2", "k2"⟩,
       ⟨"u1", "2025-06-01", "Food", "w3", "e3", "k3"⟩,
       ⟨"u1", "2025-06-01", "Food", "w4", "e4", "k4"⟩,
       ⟨"u1", "2025-06-01", "Food", "w5", "e5", "k5"⟩] ∧
    getOrGenerateDailySet
        [⟨"u1", "2025-06-01", "Food", "w1", "e1", "k1"⟩,
         ⟨"u1", "2025-06-01", "Food", "w2", "e2", "k2"⟩,
         ⟨"u1", "2025-06-01", "Food", "w3", "e3", "k3"⟩,
         ⟨"u1", "2025-06-01", "Food", "w4", "e4", "k4"⟩,
         ⟨"u1", "2025-06-01", "Food", "w5", "e5", "k5"⟩]
        "u1" "2025-06-01" none =
      getOrGenerateDailySet
        [⟨"u1", "2025-06-01", "Food", "w1", "e1", "k1"⟩,
         ⟨"u1", "2025-06-01", "Food", "w2", "e2", "k2"⟩,
         ⟨"u1", "2025-06-01", "Food", "w3", "e3", "k3"⟩,
         ⟨"u1", "2025-06-01", "Food", "w4", "e4", "k4"⟩,
         ⟨"u1", "2025-06-01", "Food", "w5", "e5", "k5"⟩]
        "u1" "2025-06-01" (some ⟨"Travel", some []⟩) ∧
    (getOrGenerateDailySet
        [⟨"u1", "2025-06-01", "Food", "w1", "e1", "k1"⟩,
         ⟨"u1", "2025-06-01", "Food", "w2", "e2", "k2"⟩,
         ⟨"u1", "2025-06-01", "Food", "w3", "e3", "k3"⟩,
         ⟨"u1", "2025-06-01", "Food", "w4", "e4", "k4"⟩,
         ⟨"u1", "2025-06-01", "Food", "w5", "e5", "k5"⟩]
        "u1" "2025-06-01" none).1 =
      DailyResult.ok
        ((dailyRowsFor
            [⟨"u1", "2025-06-01", "Food", "w1", "e1", "k1"⟩,
             ⟨"u1", "2025-06-01", "Food", "w2", "e2", "k2"⟩,
             ⟨"u1", "2025-06-01", "Food", "w3", "e3", "k3"⟩,
             ⟨"u1", "2025-06-01", "Food", "w4", "e4", "k4"⟩,
             ⟨"u1", "2025-06-01", "Food", "w5", "e5", "k5"⟩]
            "u1" "2025-06-01").headD default).topic
        (dailyRowsFor
            [⟨"u1", "2025-06-01", "Food", "w1", "e1", "k1"⟩,
             ⟨"u1", "2025-06-01", "Food", "w2", "e2", "k2"⟩,
             ⟨"u1", "2025-06-01", "Food", "w3", "e3", "k3"⟩,
             ⟨"u1", "2025-06-01", "Food", "w4", "e4", "k4"⟩,
             ⟨"u1", "2025-06-01", "Food", "w5", "e5", "k5"⟩]
            "u1" "2025-06-01") :=
  getOrGenerateDailySet_cache_hit_frame
    [⟨"u1", "2025-06-01", "Food", "w1", "e1", "k1"⟩,
     ⟨"u1", "2025-06-01", "Food", "w2", "e2", "k2"⟩,
     ⟨"u1", "2025-06-01", "Food", "w3", "e3", "k3"⟩,
     ⟨"u1", "2025-06-01", "Food", "w4", "e4", "k4"⟩,
     ⟨"u1", "2025-06-01", "Food", "w5", "e5", "k5"⟩]
    "u1" "2025-06-01" none (some ⟨"Travel", some []⟩) (by decide)

/-- If a stored entry of conversation `cid` carries the same lower-cased
word and lower-cased translation as the pair `p`, the key of `p` is among
the conversation's existing keys. -/
theorem pairKey_mem_convKeys (store : List VocabularyEntry) (cid : String)
    (p : VocabularyPair) (e : VocabularyEntry) (he : e ∈ store)
    (hcid : e.conversationId = cid)
    (hw : toLowerStr e.latvianWord.toList = toLowerStr p.latvianWord.toList)
    (ht : toLowerStr e.englishTranslation.toList
            = toLowerStr p.englishTranslation.toList) :
    pairKey p ∈ convKeys store cid := by
  have hmem : e ∈ store.filter (fun v => v.conversationId == cid) :=
    List.mem_filter.mpr ⟨he, by simp [hcid]⟩
  have hkey : strKey e.latvianWord e.englishTranslation = pairKey p := by
    unfold pairKey strKey keyOf
    rw [hw, ht]
  exact hkey ▸ List.mem_map_of_mem _ hmem

/-- C5: a pair whose word and translation agree, up to letter case, with
an entry already stored for the conversation is filtered out by the
dedup-insert block, which then inserts zero rows. -/
theorem persistVocabulary_case_insensitive (store : List VocabularyEntry)
    (cid uid : String) (p : VocabularyPair)
    (h : ∃ e, e ∈ store ∧ e.conversationId = cid ∧
      toLowerStr e.latvianWord.toList = toLowerStr p.latvianWord.toList ∧
      toLowerStr e.englishTranslation.toList
        = toLowerStr p.englishTranslation.toList) :
    persistVocabulary store cid uid [p] = store := by
  rcases h with ⟨e, he, hcid, hw, ht⟩
  have hk : pairKey p ∈ convKeys store cid :=
    pairKey_mem_convKeys store cid p e he hcid hw ht
  simp [persistVocabulary, hk]

/-- C5 witness: persisting `(Māja, House)` when `(māja, house)` is stored
for the conversation leaves the store unchanged. -/
theorem persistVocabulary_case_insensitive_witness :
    persistVocabulary
        [⟨"c1", "u1", "māja", "house", "Šī ir māja (house)"⟩] "c1" "u1"
        [⟨"Māja", "House", "ctx"⟩]
      = [⟨"c1", "u1", "māja", "house", "Šī ir māja (house)"⟩] :=
  persistVocabulary_case_insensitive
    [⟨"c1", "u1", "māja", "house", "Šī ir māja (house)"⟩] "c1" "u1"
    ⟨"Māja", "House", "ctx"⟩
    ⟨⟨"c1", "u1", "māja", "house", "Šī ir māja (house)"⟩, by decide, by decide,
      by decide, by decide⟩

/-- The existing keys of a concatenated store split. -/
theorem convKeys_append (s1 s2 : List VocabularyEntry) (cid : String) :
    convKeys (s1 ++ s2) cid = convKeys s1 cid ++ convKeys s2 cid := by
  simp [convKeys, List.filter_append]

/-- The keys of a freshly inserted block are the keys of its pairs. -/
theorem convKeys_inserted (cid uid : String) (l : List VocabularyPair) :
    convKeys (l.map (fun p =>
        (⟨cid, uid, p.latvianWord, p.englishTranslation, p.context⟩
          : VocabularyEntry))) cid
      = l.map pairKey := by
  induction l with
  | nil => rfl
  | cons p ps ih =>
    simp only [convKeys, List.map_cons, List.filter_cons] at ih ⊢
    simp only [beq_self_eq_true, if_true]
    rw [List.map_cons]
    exact congrArg _ ih

/-- After the dedup-insert block runs on `pairs`, the key of every element
of `pairs` is among the conversation's stored keys. -/
theorem persistVocabulary_key_complete (store : List VocabularyEntry)
    (cid uid : String) (pairs : List VocabularyPair) (p : VocabularyPair)
    (hp : p ∈ pairs) :
    pairKey p ∈ convKeys (persistVocabulary store cid uid pairs) cid := by
  unfold persistVocabulary
  rw [if_pos (List.length_pos.mpr (List.ne_nil_of_mem hp))]
  dsimp only
  by_cases hcon : (convKeys store cid).contains (pairKey p) = true
  · have hkmem : pairKey p ∈ convKeys store cid := List.mem_of_elem_eq_true hcon
    by_cases hlen :
        0 < (pairs.filter (fun q => !((convKeys store cid).contains (pairKey q)))).length
    · rw [if_pos hlen, convKeys_append]
      exact List.mem_append_left _ hkmem
    · rw [if_neg hlen]
      exact hkmem
  · have hnm : pairKey p ∉ convKeys store cid :=
      fun hm => hcon (List.elem_eq_true_of_mem hm)
    have hpnew : p ∈ pairs.filter (fun q => !((convKeys store cid).contains (pairKey q))) :=
      List.mem_filter.mpr ⟨hp, by simp [hnm]⟩
    rw [if_pos (List.length_pos.mpr (List.ne_nil_of_mem hpnew)), convKeys_append,
      convKeys_inserted]
    exact List.mem_append_right _ (List.mem_map_of_mem _ hpnew)

/-- C1: extraction plus persistence is idempotent — running
`extractAndPersistVocabulary` twice in immediate succession with the same
`(conversationId, userId, tutorResponseText)` changes the store only on
the first run; the second run inserts zero rows because every extracted
pair's lower-cased `word-translation` key is already stored. -/
theorem extractAndPersistVocabulary_idempotent (store : List VocabularyEntry)
    (cid uid text : String) :
    extractAndPersistVocabulary (extractAndPersistVocabulary store cid uid text)
        cid uid text
      = extractAndPersistVocabulary store cid uid text := by
  unfold extractAndPersistVocabulary
  rcases Nat.eq_zero_or_pos (extractVocabulary text).length with hz | hpos
  · conv_lhs => rw [persistVocabulary]
    rw [if_neg (by omega)]
  · have hall : ∀ p ∈ extractVocabulary text,
        ¬((fun q => !((convKeys (persistVocabulary store cid uid
            (extractVocabulary text)) cid).contains (pairKey q))) p = true) := by
      intro p hp
      have := persistVocabulary_key_complete store cid uid (extractVocabulary text) p hp
      simp [this]
    conv_lhs => rw [persistVocabulary]
    rw [if_pos hpos]
    dsimp only
    rw [List.filter_eq_nil_iff.mpr hall]
    rw [if_neg (by simp)]

/-- Any pair the pattern-1 step adds to the accumulator passes the length
filter (both trimmed captures longer than one character). -/
theorem step1_acc_sound (t : List Char) (st : ScanState) (i : Nat)
    (p : VocabularyPair) (hp : p ∈ (step1 t st i).2.2) :
    p ∈ st.2.2 ∨ (1 < p.latvianWord.length ∧ 1 < p.englishTranslation.length) := by
  obtain ⟨last, seen, acc⟩ := st
  unfold step1 at hp
  dsimp only at hp
  by_cases hlt : i < last
  · rw [if_pos hlt] at hp; exact Or.inl hp
  · rw [if_neg hlt] at hp
    rcases hm : matchP1At t i with _ | ⟨e, wRaw, trRaw⟩
    · rw [hm] at hp; exact Or.inl hp
    · rw [hm] at hp
      dsimp only at hp
      by_cases hcond : seen.contains (keyOf (jsTrim wRaw) (jsTrim trRaw)) = false ∧
          1 < (jsTrim wRaw).length ∧ 1 < (jsTrim trRaw).length
      · rw [if_pos hcond] at hp
        dsimp only at hp
        rcases List.mem_append.mp hp with h | h
        · exact Or.inl h
        · cases List.mem_singleton.mp h
          exact Or.inr ⟨hcond.2.1, hcond.2.2⟩
      · rw [if_neg hcond] at hp; exact Or.inl hp

/-- Any pair the pattern-2 step adds to the accumulator passes the length
filter. -/
theorem step2_acc_sound (t : List Char) (st : ScanState) (i : Nat)
    (p : VocabularyPair) (hp : p ∈ (step2 t st i).2.2) :
    p ∈ st.2.2 ∨ (1 < p.latvianWord.length ∧ 1 < p.englishTranslation.length) := by
  obtain ⟨last, seen, acc⟩ := st
  unfold step2 at hp
  dsimp only at hp
  by_cases hlt : i < last
  · rw [if_pos hlt] at hp; exact Or.inl hp
  · rw [if_neg hlt] at hp
    rcases hm : matchP2At t i with _ | ⟨e, wRaw, trRaw⟩
    · rw [hm] at hp; exact Or.inl hp
    · rw [hm] at hp
      dsimp only at hp
      by_cases htok : 3 < countTokens (jsTrim trRaw)
      · rw [if_pos htok] at hp; exact Or.inl hp
      · rw [if_neg htok] at hp
        by_cases hcond : seen.contains (keyOf (jsTrim wRaw) (jsTrim trRaw)) = false ∧
            1 < (jsTrim wRaw).length ∧ 1 < (jsTrim trRaw).length
        · rw [if_pos hcond] at hp
          dsimp only at hp
          rcases List.mem_append.mp hp with h | h
          · exact Or.inl h
          · cases List.mem_singleton.mp h
            exact Or.inr ⟨hcond.2.1, hcond.2.2⟩
        · rw [if_neg hcond] at hp; exact Or.inl hp

/-- Folding a scanner step whose every addition satisfies `P` only adds
pairs satisfying `P` to the accumulator. -/
theorem scan_foldl_acc_sound (f : ScanState → Nat → ScanState)
    (P : VocabularyPair → Prop)
    (hf : ∀ st i p, p ∈ (f st i).2.2 → p ∈ st.2.2 ∨ P p) :
    ∀ (l : List Nat) (st : ScanState) (p : VocabularyPair),
      p ∈ (l.foldl f st).2.2 → p ∈ st.2.2 ∨ P p := by
  intro l
  induction l with
  | nil => exact fun st p hp => Or.inl hp
  | cons a as ih =>
    intro st p hp
    rcases ih (f st a) p hp with h | h
    · exact hf st a p h
    · exact Or.inr h

/-- C9: every pair returned by `extractVocabulary` has a word and a
translation of length at least 2 — one-character words or translations
(after trimming) are never emitted by either pattern. -/
theorem extractVocabulary_length_filter (s : String) (p : VocabularyPair)
    (hp : p ∈ extractVocabulary s) :
    1 < p.latvianWord.length ∧ 1 < p.englishTranslation.length := by
  unfold extractVocabulary at hp
  dsimp only at hp
  rcases List.mem_append.mp hp with h | h
  · rcases scan_foldl_acc_sound (step1 s.toList) _ (step1_acc_sound s.toList)
        (List.range s.toList.length) (0, [], []) p h with h0 | hP
    · exact absurd h0 (List.not_mem_nil p)
    · exact hP
  · rcases scan_foldl_acc_sound (step2 s.toList) _ (step2_acc_sound s.toList)
        (List.range s.toList.length)
        (0, ((List.range s.toList.length).foldl (step1 s.toList) (0, [], [])).2.1, [])
        p h with h0 | hP
    · exact absurd h0 (List.not_mem_nil p)
    · exact hP

/-- C9 witness: the pair extracted from `"suns (dog)"` has a 4-character
word and a 3-character translation. -/
theorem extractVocabulary_length_filter_witness :
    1 < (VocabularyPair.mk "suns" "dog" "suns (dog)").latvianWord.length ∧
    1 < (VocabularyPair.mk "suns" "dog" "suns (dog)").englishTranslation.length :=
  extractVocabulary_length_filter "suns (dog)" ⟨"suns", "dog", "suns (dog)"⟩
    (by decide)

end LearnLang
